import Mathlib

/-!
# Verification of the hybrid multimodal retrieval and fusion engine

Shallow embedding of the retrieval/ranking/fusion core of the product-catalog
RAG application (files `src/web_app.py` and `src/search/vector_search.py`),
together with theorems settling the specification claims.

Modelling conventions:
* Python strings are `List Char`; `str.lower()` is `Char.toLower` mapped over
  the characters, `str.strip()` drops whitespace at both ends, `str.split()`
  splits on whitespace runs, and the `in` operator is contiguous-sublist
  containment.
* Python floats are modelled as exact rationals `ℚ`.  `round(x, n)` is decimal
  round-half-to-even.  The floating square root inside `numpy.linalg.norm`
  is an explicit parameter `s : ℚ → ℚ` of the similarity functions; theorems
  that depend on it only assume its defining equations at the values at which
  it is applied (`0 ≤ s q` and `s q ^ 2 = q`).
* `numpy.dot` and sklearn's `cosine_similarity` raise `ValueError` on vectors
  of unequal length; this is modelled with `Except VErr`.
* Item identifiers (Python `str(_id)` dictionary keys) are an arbitrary type
  `α` with decidable equality.
-/

/-- Python `str.lower()`: lower-case every character. -/
def lowerStr (s : List Char) : List Char := s.map Char.toLower

/-- Python `str.strip()`: drop whitespace from both ends. -/
def stripStr (s : List Char) : List Char :=
  ((s.dropWhile Char.isWhitespace).reverse.dropWhile Char.isWhitespace).reverse

/-- Helper for `splitWs`: accumulates the current (reversed) word. -/
def splitWsAux : List Char → List Char → List (List Char)
  | [], acc => if acc.isEmpty then [] else [acc.reverse]
  | c :: rest, acc =>
    if c.isWhitespace then
      if acc.isEmpty then splitWsAux rest [] else acc.reverse :: splitWsAux rest []
    else
      splitWsAux rest (c :: acc)

/-- Python `str.split()` with no argument: split on whitespace runs, no empty words. -/
def splitWs (s : List Char) : List (List Char) := splitWsAux s []

/-- Python's `needle in hay` for strings: contiguous substring containment. -/
def containsSub (needle hay : List Char) : Bool :=
  match hay with
  | [] => needle.isEmpty
  | _ :: t => needle.isPrefixOf hay || containsSub needle t

/-- Python `" ".join(fields)`: concatenation with a single space between fields. -/
def joinSpace : List (List Char) → List Char
  | [] => []
  | [f] => f
  | f :: rest => f ++ ' ' :: joinSpace rest

/-- Round-half-to-even to an integer (the tie rule used by Python `round`). -/
def roundHalfEven (q : ℚ) : ℤ :=
  let n := ⌊q⌋
  if q - n < 1/2 then n
  else if 1/2 < q - n then n + 1
  else if Even n then n else n + 1

/-- Python `round(x, n)`: decimal rounding to `n` places, half to even. -/
def roundTo (n : ℕ) (q : ℚ) : ℚ := (roundHalfEven (q * 10 ^ n) : ℚ) / 10 ^ n

/-- Numpy `np.dot(a, b)` on the overlap of the two vectors. -/
def dot (a b : List ℚ) : ℚ := (List.zipWith (· * ·) a b).sum

/-- Squared Euclidean norm: `np.linalg.norm(a) ** 2` computed exactly. -/
def normSq (a : List ℚ) : ℚ := dot a a

/-- The one runtime error the similarity kernels can raise: a `ValueError`
from `numpy`/`sklearn` when the two vectors have different lengths. -/
inductive VErr where
  | dimMismatch
  deriving DecidableEq, Repr

namespace VectorSearch

/-- Function `cosine_similarity` from `src/search/vector_search.py` (lines 58-78).
The source computes both norms first and returns `0.0` if either is zero
(`np.linalg.norm` never fails, so this happens even for unequal lengths);
only the final `np.dot(a, b)` can raise on unequal lengths.  A float norm of
an exact vector is zero iff its sum of squares is zero, so the guard is
expressed on `normSq`.  `s` is the floating square root. -/
def cosine_similarity (s : ℚ → ℚ) (vec1 vec2 : List ℚ) : Except VErr ℚ :=
  if normSq vec1 = 0 ∨ normSq vec2 = 0 then .ok 0
  else if vec1.length = vec2.length then
    .ok (dot vec1 vec2 / (s (normSq vec1) * s (normSq vec2)))
  else .error .dimMismatch

end VectorSearch

namespace WebApp

/-- Function `cosine_similarity` from `src/web_app.py` (lines 156-166): sklearn's
kernel raises on a shape mismatch before anything else; a zero-magnitude row
is left unnormalised, giving similarity 0. -/
def cosine_similarity (s : ℚ → ℚ) (vec1 vec2 : List ℚ) : Except VErr ℚ :=
  if vec1.length = vec2.length then
    if normSq vec1 = 0 ∨ normSq vec2 = 0 then .ok 0
    else .ok (dot vec1 vec2 / (s (normSq vec1) * s (normSq vec2)))
  else .error .dimMismatch

end WebApp

example : stripStr (lowerStr [' ', 'A', 'b', ' ']) = ['a', 'b'] := by decide

example : splitWs [' ', 'a', 'b', ' ', ' ', 'c', ' '] = [['a', 'b'], ['c']] := by decide

example : containsSub ['b', 'c'] ['a', 'b', 'c', 'd'] = true := by decide

example : containsSub ['b', 'c'] ['a', 'b', ' ', 'c', 'd'] = false := by decide

example : roundTo 4 (123456/1000000 : ℚ) = 1235/10000 := by
  norm_num [roundTo, roundHalfEven]

example : dot [1, 2] [3, 4] = 11 := by norm_num [dot]

example : VectorSearch.cosine_similarity (fun q => q) [0, 0] [1, 2, 3] = .ok 0 := by
  norm_num [VectorSearch.cosine_similarity, normSq, dot]

example : WebApp.cosine_similarity (fun q => q) [0, 0] [1, 2, 3] = .error .dimMismatch := by
  norm_num [WebApp.cosine_similarity, normSq, dot]

/-! ## Stable descending sort

Python's `sorted(..., key=k, reverse=True)` is a stable sort: the output is
ordered by key descending, and elements with equal keys keep their original
relative order.  Those two properties determine the output uniquely, so any
stable implementation is extensionally the same function; we use insertion
sort, which the kernel can evaluate. -/

section SortDesc

variable {ε : Type*} (key : ε → ℚ)

/-- Insert `x` before the first element whose key is `≤ key x` (so `x` goes
after strictly greater keys and before equal ones, which is what stability
requires when the elements originally before `x` are already placed). -/
def insertDesc (x : ε) : List ε → List ε
  | [] => [x]
  | y :: ys => if key x < key y then y :: insertDesc x ys else x :: y :: ys

/-- Stable descending sort by `key`. -/
def sortDesc (l : List ε) : List ε := l.foldr (insertDesc key) []

theorem insertDesc_perm (x : ε) (l : List ε) :
    List.Perm (insertDesc key x l) (x :: l) := by
  induction l with
  | nil => rfl
  | cons y ys ih =>
    by_cases h : key x < key y
    · simpa [insertDesc, h] using (ih.cons y).trans (List.Perm.swap x y ys)
    · simp [insertDesc, h]

theorem sortDesc_perm (l : List ε) : List.Perm (sortDesc key l) l := by
  induction l with
  | nil => rfl
  | cons x xs ih => exact (insertDesc_perm key x (sortDesc key xs)).trans (ih.cons x)

theorem insertDesc_sorted (x : ε) {l : List ε}
    (hl : l.Sorted (fun a b => key b ≤ key a)) :
    (insertDesc key x l).Sorted (fun a b => key b ≤ key a) := by
  induction l with
  | nil => simp [insertDesc]
  | cons y ys ih =>
    rcases List.sorted_cons.1 hl with ⟨hy, hys⟩
    by_cases h : key x < key y
    · have hstep : (insertDesc key x (y :: ys)) = y :: insertDesc key x ys := by
        simp [insertDesc, h]
      rw [hstep]
      refine List.sorted_cons.2 ⟨fun b hb => ?_, ih hys⟩
      rcases List.mem_cons.1 ((insertDesc_perm key x ys).mem_iff.1 hb) with hb | hb
      · exact hb ▸ le_of_lt h
      · exact hy b hb
    · have hstep : (insertDesc key x (y :: ys)) = x :: y :: ys := by
        simp [insertDesc, h]
      rw [hstep]
      refine List.sorted_cons.2 ⟨fun b hb => ?_, hl⟩
      rcases List.mem_cons.1 hb with hb | hb
      · exact hb ▸ le_of_not_lt h
      · exact le_trans (hy b hb) (le_of_not_lt h)

/-- Stability, in the classical filter formulation: restricting the sorted
list to the elements of one fixed key value gives exactly the restriction of
the input, in the same order. -/
theorem insertDesc_filter_eq (x : ε) (l : List ε) (q : ℚ) :
    (insertDesc key x l).filter (fun e => key e = q) =
      (x :: l).filter (fun e => key e = q) := by
  induction l with
  | nil => simp [insertDesc]
  | cons y ys ih =>
    by_cases h : key x < key y
    · have hstep : (insertDesc key x (y :: ys)) = y :: insertDesc key x ys := by
        simp [insertDesc, h]
      rw [hstep]
      by_cases hx : key x = q
      · have hy : ¬ key y = q := by
          intro hy
          rw [hx, hy] at h
          exact lt_irrefl q h
        simp [List.filter_cons, hx, hy, ih]
      · simp [List.filter_cons, hx, ih]
    · simp [insertDesc, h]

theorem sortDesc_filter_eq (l : List ε) (q : ℚ) :
    (sortDesc key l).filter (fun e => key e = q) = l.filter (fun e => key e = q) := by
  induction l with
  | nil => rfl
  | cons x xs ih =>
    calc (insertDesc key x (sortDesc key xs)).filter (fun e => key e = q)
        = (x :: sortDesc key xs).filter (fun e => key e = q) :=
          insertDesc_filter_eq key x _ q
      _ = (x :: xs).filter (fun e => key e = q) := by
          by_cases hx : key x = q <;> simp [hx, ih]

end SortDesc

/-! ## Insertion-ordered dictionary

Python dictionaries preserve insertion order: assignment to an existing key
replaces the value in place, assignment to a fresh key appends.  The fusion
map `productos_fusionados` of `rag_query` is such a dictionary, modelled as an
association list. -/

section Dict

variable {α : Type*} {β : Type*} [DecidableEq α]

/-- Python `d[k] = v`. -/
def dictInsert : List (α × β) → α → β → List (α × β)
  | [], k, v => [(k, v)]
  | (k', v') :: rest, k, v =>
    if k = k' then (k, v) :: rest else (k', v') :: dictInsert rest k v

/-- Python `d.get(k)` / `k in d`. -/
def dictLookup : List (α × β) → α → Option β
  | [], _ => none
  | (k', v') :: rest, k => if k = k' then some v' else dictLookup rest k

theorem dictLookup_insert_self (m : List (α × β)) (k : α) (v : β) :
    dictLookup (dictInsert m k v) k = some v := by
  induction m with
  | nil => simp [dictInsert, dictLookup]
  | cons kv rest ih =>
    by_cases h : k = kv.1
    · simp [dictInsert, dictLookup, h]
    · simp [dictInsert, dictLookup, h, ih]

theorem dictLookup_insert_ne (m : List (α × β)) {k k' : α} (v : β) (h : k' ≠ k) :
    dictLookup (dictInsert m k v) k' = dictLookup m k' := by
  induction m with
  | nil => simp [dictInsert, dictLookup, h]
  | cons kv rest ih =>
    by_cases hk : k = kv.1
    · subst hk
      simp [dictInsert, dictLookup, h]
    · by_cases hk' : k' = kv.1
      · simp [dictInsert, dictLookup, hk, hk']
      · simp [dictInsert, dictLookup, hk, hk', ih]

theorem keys_dictInsert (m : List (α × β)) (k : α) (v : β) :
    (dictInsert m k v).map Prod.fst =
      if k ∈ m.map Prod.fst then m.map Prod.fst else m.map Prod.fst ++ [k] := by
  induction m with
  | nil => simp [dictInsert]
  | cons kv rest ih =>
    by_cases h : k = kv.1
    · simp [dictInsert, h]
    · simp only [dictInsert, if_neg h, List.map_cons, ih]
      by_cases hm : k ∈ rest.map Prod.fst
      · simp [hm, Ne.symm h]
      · simp [hm, Ne.symm h, h]

theorem nodup_keys_dictInsert (m : List (α × β)) (k : α) (v : β)
    (hm : (m.map Prod.fst).Nodup) : ((dictInsert m k v).map Prod.fst).Nodup := by
  rw [keys_dictInsert]
  by_cases h : k ∈ m.map Prod.fst
  · simpa [h] using hm
  · rw [if_neg h]
    exact hm.append (List.nodup_singleton k)
      (fun a ha hak => h (List.mem_singleton.1 hak ▸ ha))

end Dict

/-! ## Hybrid fusion engine (`rag_query`, `src/web_app.py` lines 1286-1324)

Text and image retrieval hand `rag_query` two scored candidate lists; fusion
builds an insertion-ordered map keyed by item identifier and then stable-sorts
its values by `hybrid_score` descending, truncating to `max_products`.
Candidates carry only the fields fusion reads: the identifier
(`str(p['_id'])`) and the retrieval score (`text_similarity` /
`image_similarity`); the document payload that is passed through unchanged is
not modelled. -/

/-- A scored retrieval candidate entering fusion. -/
structure Cand (α : Type*) where
  pid : α
  score : ℚ
  deriving DecidableEq, Repr

/-- A value of the fusion map: the three scores `rag_query` stores per item. -/
structure FusionEntry where
  text_score : ℚ
  image_score : ℚ
  hybrid_score : ℚ
  deriving DecidableEq, Repr

section Fusion

variable {α : Type*} [DecidableEq α]

/-- Entry created for a text candidate: `text_score` is the semantic score,
`image_score = 0`, provisional `hybrid_score = text_score * 0.7`. -/
def textEntry (c : Cand α) : FusionEntry := ⟨c.score, 0, c.score * 0.7⟩

/-- One iteration of the text loop of the fusion (`productos_fusionados[pid] = ...`). -/
def fuseTextStep (m : List (α × FusionEntry)) (c : Cand α) : List (α × FusionEntry) :=
  dictInsert m c.pid (textEntry c)

/-- One iteration of the image loop: an identifier already in the map keeps its
`text_score` and gets `hybrid_score = text_score*0.6 + image_score*0.4`; a new
identifier enters with `text_score = 0` and `hybrid_score = image_score*0.4`. -/
def fuseImgStep (m : List (α × FusionEntry)) (c : Cand α) : List (α × FusionEntry) :=
  match dictLookup m c.pid with
  | some e => dictInsert m c.pid ⟨e.text_score, c.score, e.text_score * 0.6 + c.score * 0.4⟩
  | none => dictInsert m c.pid ⟨0, c.score, c.score * 0.4⟩

/-- The fusion map `productos_fusionados` built from the text candidates and
then the image candidates. -/
def productos_fusionados (T I : List (Cand α)) : List (α × FusionEntry) :=
  I.foldl fuseImgStep (T.foldl fuseTextStep [])

/-- List `productos_ordenados`: the fusion map's values sorted by hybrid score
descending (Python's stable `sorted(..., reverse=True)`) and truncated to
`max_products`.  The identifier keys are carried along. -/
def productos_ordenados (T I : List (Cand α)) (max_products : ℕ) :
    List (α × FusionEntry) :=
  (sortDesc (fun e => e.2.hybrid_score) (productos_fusionados T I)).take max_products

theorem lookup_fuseTextStep_ne (m : List (α × FusionEntry)) (c : Cand α) {p : α}
    (h : p ≠ c.pid) : dictLookup (fuseTextStep m c) p = dictLookup m p :=
  dictLookup_insert_ne m _ h

theorem lookup_fuseImgStep_ne (m : List (α × FusionEntry)) (c : Cand α) {p : α}
    (h : p ≠ c.pid) : dictLookup (fuseImgStep m c) p = dictLookup m p := by
  unfold fuseImgStep
  cases dictLookup m c.pid with
  | none => exact dictLookup_insert_ne m _ h
  | some e => exact dictLookup_insert_ne m _ h

theorem lookup_foldl_text_not_mem (T : List (Cand α)) (m : List (α × FusionEntry))
    {p : α} (hp : p ∉ T.map Cand.pid) :
    dictLookup (T.foldl fuseTextStep m) p = dictLookup m p := by
  induction T generalizing m with
  | nil => rfl
  | cons t ts ih =>
    simp only [List.map_cons, List.mem_cons, not_or] at hp
    rw [List.foldl_cons, ih (fuseTextStep m t) hp.2, lookup_fuseTextStep_ne m t hp.1]

theorem lookup_foldl_img_not_mem (I : List (Cand α)) (m : List (α × FusionEntry))
    {p : α} (hp : p ∉ I.map Cand.pid) :
    dictLookup (I.foldl fuseImgStep m) p = dictLookup m p := by
  induction I generalizing m with
  | nil => rfl
  | cons i is ih =>
    simp only [List.map_cons, List.mem_cons, not_or] at hp
    rw [List.foldl_cons, ih (fuseImgStep m i) hp.2, lookup_fuseImgStep_ne m i hp.1]

theorem lookup_foldl_text_mem (T : List (Cand α)) (m : List (α × FusionEntry))
    (hT : (T.map Cand.pid).Nodup) {t : Cand α} (ht : t ∈ T) :
    dictLookup (T.foldl fuseTextStep m) t.pid = some (textEntry t) := by
  induction T generalizing m with
  | nil => cases ht
  | cons t' ts ih =>
    simp only [List.map_cons, List.nodup_cons] at hT
    rcases List.mem_cons.1 ht with rfl | ht'
    · rw [List.foldl_cons,
        lookup_foldl_text_not_mem ts _ hT.1,
        fuseTextStep, dictLookup_insert_self]
    · rw [List.foldl_cons]
      exact ih (fuseTextStep m t') hT.2 ht' 

theorem lookup_foldl_img_mem (I : List (Cand α)) (m : List (α × FusionEntry))
    (hI : (I.map Cand.pid).Nodup) {i : Cand α} (hi : i ∈ I) :
    dictLookup (I.foldl fuseImgStep m) i.pid =
      some (match dictLookup m i.pid with
            | some e => ⟨e.text_score, i.score, e.text_score * 0.6 + i.score * 0.4⟩
            | none => ⟨0, i.score, i.score * 0.4⟩) := by
  induction I generalizing m with
  | nil => cases hi
  | cons i' is ih =>
    simp only [List.map_cons, List.nodup_cons] at hI
    rcases List.mem_cons.1 hi with rfl | hi'
    · rw [List.foldl_cons, lookup_foldl_img_not_mem is _ hI.1]
      unfold fuseImgStep
      cases dictLookup m i.pid with
      | none => rw [dictLookup_insert_self]
      | some e => rw [dictLookup_insert_self]
    · rw [List.foldl_cons,
        ih (fuseImgStep m i') hI.2 hi',
        lookup_fuseImgStep_ne m i' (fun hpe => hI.1 (hpe ▸ List.mem_map_of_mem Cand.pid hi'))]

theorem nodup_keys_foldl_text (T : List (Cand α)) (m : List (α × FusionEntry))
    (hm : (m.map Prod.fst).Nodup) :
    ((T.foldl fuseTextStep m).map Prod.fst).Nodup := by
  induction T generalizing m with
  | nil => exact hm
  | cons t ts ih => exact ih _ (nodup_keys_dictInsert m _ _ hm)

theorem nodup_keys_fuseImgStep (m : List (α × FusionEntry)) (c : Cand α)
    (hm : (m.map Prod.fst).Nodup) : ((fuseImgStep m c).map Prod.fst).Nodup := by
  unfold fuseImgStep
  cases dictLookup m c.pid with
  | none => exact nodup_keys_dictInsert m _ _ hm
  | some e => exact nodup_keys_dictInsert m _ _ hm

theorem nodup_keys_foldl_img (I : List (Cand α)) (m : List (α × FusionEntry))
    (hm : (m.map Prod.fst).Nodup) :
    ((I.foldl fuseImgStep m).map Prod.fst).Nodup := by
  induction I generalizing m with
  | nil => exact hm
  | cons i is ih => exact ih _ (nodup_keys_fuseImgStep m i hm)

/-- The fusion map never holds two entries with the same item identifier. -/
theorem nodup_keys_productos_fusionados (T I : List (Cand α)) :
    ((productos_fusionados T I).map Prod.fst).Nodup :=
  nodup_keys_foldl_img I _ (nodup_keys_foldl_text T [] (by simp))

end Fusion

/-- C1: in the fusion map, an item found by both text and image retrieval gets
`hybrid_score = 0.6*text_score + 0.4*image_score` (with `image_score` the image
candidate's score and `text_score` the semantic text score); an item found
only by text keeps `hybrid_score = 0.7*text_score`; an item found only by
image gets `hybrid_score = 0.4*image_score`.  Candidate lists carry one entry
per item identifier. -/
theorem C1_fusion_weights {α : Type*} [DecidableEq α] (T I : List (Cand α))
    (hT : (T.map Cand.pid).Nodup) (hI : (I.map Cand.pid).Nodup) :
    (∀ t ∈ T, ∀ i ∈ I, i.pid = t.pid →
        dictLookup (productos_fusionados T I) t.pid =
          some ⟨t.score, i.score, t.score * 0.6 + i.score * 0.4⟩) ∧
    (∀ t ∈ T, t.pid ∉ I.map Cand.pid →
        dictLookup (productos_fusionados T I) t.pid =
          some ⟨t.score, 0, t.score * 0.7⟩) ∧
    (∀ i ∈ I, i.pid ∉ T.map Cand.pid →
        dictLookup (productos_fusionados T I) i.pid =
          some ⟨0, i.score, i.score * 0.4⟩) := by
  refine ⟨?_, ?_, ?_⟩
  · intro t ht i hi hpe
    have h1 : dictLookup (T.foldl fuseTextStep []) t.pid = some (textEntry t) :=
      lookup_foldl_text_mem T [] hT ht
    have h2 := lookup_foldl_img_mem I (T.foldl fuseTextStep []) hI hi
    rw [hpe, h1] at h2
    simpa [productos_fusionados, textEntry] using h2
  · intro t ht hnotI
    rw [productos_fusionados, lookup_foldl_img_not_mem I _ hnotI,
      lookup_foldl_text_mem T [] hT ht]
    rfl
  · intro i hi hnotT
    have h1 : dictLookup (T.foldl fuseTextStep []) i.pid = none := by
      rw [lookup_foldl_text_not_mem T [] hnotT]
      rfl
    have h2 := lookup_foldl_img_mem I (T.foldl fuseTextStep []) hI hi
    rw [h1] at h2
    simpa [productos_fusionados] using h2

/-- Witness for C1 at concrete inputs: item 2 found by both paths, item 1 only
by text, item 3 only by image. -/
theorem C1_fusion_weights_witness :
    dictLookup (productos_fusionados ([⟨1, 2⟩, ⟨2, 4⟩] : List (Cand ℕ))
        ([⟨2, 3⟩, ⟨3, 5⟩] : List (Cand ℕ))) 2 =
      some ⟨4, 3, 4 * 0.6 + 3 * 0.4⟩ ∧
    dictLookup (productos_fusionados ([⟨1, 2⟩, ⟨2, 4⟩] : List (Cand ℕ))
        ([⟨2, 3⟩, ⟨3, 5⟩] : List (Cand ℕ))) 1 = some ⟨2, 0, 2 * 0.7⟩ ∧
    dictLookup (productos_fusionados ([⟨1, 2⟩, ⟨2, 4⟩] : List (Cand ℕ))
        ([⟨2, 3⟩, ⟨3, 5⟩] : List (Cand ℕ))) 3 = some ⟨0, 5, 5 * 0.4⟩ := by
  have h := C1_fusion_weights ([⟨1, 2⟩, ⟨2, 4⟩] : List (Cand ℕ))
    ([⟨2, 3⟩, ⟨3, 5⟩] : List (Cand ℕ)) (by decide) (by decide)
  exact ⟨h.1 ⟨2, 4⟩ (by decide) ⟨2, 3⟩ (by decide) rfl,
    h.2.1 ⟨1, 2⟩ (by decide) (by decide),
    h.2.2 ⟨3, 5⟩ (by decide) (by decide)⟩

/-- C10: fused output contains each item identifier at most once — both in the
fusion map and in the final ranked, truncated list. -/
theorem C10_fused_ids_nodup {α : Type*} [DecidableEq α]
    (T I : List (Cand α)) (n : ℕ) :
    ((productos_ordenados T I n).map Prod.fst).Nodup ∧
    ((productos_fusionados T I).map Prod.fst).Nodup := by
  have h := nodup_keys_productos_fusionados T I
  refine ⟨?_, h⟩
  have hperm :
      List.Perm (sortDesc (fun e => e.2.hybrid_score) (productos_fusionados T I))
        (productos_fusionados T I) := sortDesc_perm _ _
  have hs : ((sortDesc (fun e => e.2.hybrid_score)
      (productos_fusionados T I)).map Prod.fst).Nodup :=
    ((hperm.map Prod.fst).nodup_iff).2 h
  exact ((List.take_sublist n _).map Prod.fst).nodup hs

theorem sortDesc_sorted {ε : Type*} (key : ε → ℚ) (l : List ε) :
    (sortDesc key l).Sorted (fun a b => key b ≤ key a) := by
  induction l with
  | nil => simp [sortDesc]
  | cons x xs ih => exact insertDesc_sorted key x ih

/-- C4 (amended): the fusion output is sorted descending by `hybrid_score` and
is a truncation-to-`n` of (a permutation of) the map entries — all entries
when `n` is large enough — and ties are broken by the map's insertion order
(Python's `sorted` is stable), not by item identifier: restricting the ranked
prefix to any fixed score value yields an initial segment of the equally
scored map entries in map order. -/
theorem C4_fusion_ordering {α : Type*} [DecidableEq α] (T I : List (Cand α)) (n : ℕ) :
    (productos_ordenados T I n).Sorted
        (fun x y => y.2.hybrid_score ≤ x.2.hybrid_score) ∧
    List.Subperm (productos_ordenados T I n) (productos_fusionados T I) ∧
    (productos_ordenados T I n).length = min n (productos_fusionados T I).length ∧
    ((productos_fusionados T I).length ≤ n →
      List.Perm (productos_ordenados T I n) (productos_fusionados T I)) ∧
    (∀ q : ℚ, ∃ rest,
      (productos_ordenados T I n).filter (fun e => e.2.hybrid_score = q) ++ rest =
        (productos_fusionados T I).filter (fun e => e.2.hybrid_score = q)) := by
  have hperm : List.Perm
      (sortDesc (fun e : α × FusionEntry => e.2.hybrid_score) (productos_fusionados T I))
      (productos_fusionados T I) := sortDesc_perm _ _
  have hsorted := sortDesc_sorted (fun e : α × FusionEntry => e.2.hybrid_score)
    (productos_fusionados T I)
  refine ⟨?_, ?_, ?_, ?_, ?_⟩
  · exact List.Pairwise.sublist (List.take_sublist n _) hsorted
  · exact ((List.take_sublist n _).subperm).trans hperm.subperm
  · rw [productos_ordenados, List.length_take, hperm.length_eq]
  · intro hn
    have ht : (sortDesc (fun e : α × FusionEntry => e.2.hybrid_score)
        (productos_fusionados T I)).take n = _ :=
      List.take_of_length_le (hperm.length_eq ▸ hn)
    rw [productos_ordenados, ht]
    exact hperm
  · intro q
    refine ⟨((sortDesc (fun e : α × FusionEntry => e.2.hybrid_score)
      (productos_fusionados T I)).drop n).filter (fun e => e.2.hybrid_score = q), ?_⟩
    rw [productos_ordenados, ← List.filter_append, List.take_append_drop]
    exact sortDesc_filter_eq (fun e => e.2.hybrid_score) (productos_fusionados T I) q

/-- Witness for C4 at a concrete input. -/
theorem C4_fusion_ordering_witness :
    (productos_ordenados ([⟨1, 2⟩] : List (Cand ℕ)) ([⟨2, 3⟩] : List (Cand ℕ)) 1).Sorted
        (fun x y => y.2.hybrid_score ≤ x.2.hybrid_score) ∧
    List.Subperm (productos_ordenados ([⟨1, 2⟩] : List (Cand ℕ)) [⟨2, 3⟩] 1)
      (productos_fusionados [⟨1, 2⟩] [⟨2, 3⟩]) ∧
    (productos_ordenados ([⟨1, 2⟩] : List (Cand ℕ)) [⟨2, 3⟩] 1).length =
      min 1 (productos_fusionados ([⟨1, 2⟩] : List (Cand ℕ)) [⟨2, 3⟩]).length ∧
    ((productos_fusionados ([⟨1, 2⟩] : List (Cand ℕ)) [⟨2, 3⟩]).length ≤ 1 →
      List.Perm (productos_ordenados ([⟨1, 2⟩] : List (Cand ℕ)) [⟨2, 3⟩] 1)
        (productos_fusionados [⟨1, 2⟩] [⟨2, 3⟩])) ∧
    (∀ q : ℚ, ∃ rest,
      (productos_ordenados ([⟨1, 2⟩] : List (Cand ℕ)) [⟨2, 3⟩] 1).filter
          (fun e => e.2.hybrid_score = q) ++ rest =
        (productos_fusionados ([⟨1, 2⟩] : List (Cand ℕ)) [⟨2, 3⟩]).filter
          (fun e => e.2.hybrid_score = q)) :=
  C4_fusion_ordering ([⟨1, 2⟩] : List (Cand ℕ)) [⟨2, 3⟩] 1

/-- Counterexample to C4 as stated: with two text candidates of equal score
inserted as id 2 then id 1 (and no image candidates), the code keeps
insertion order on the tie, so the output is NOT sorted with ties broken by
item identifier ascending. -/
theorem C4_counterexample :
    productos_ordenados ([⟨2, 2⟩, ⟨1, 2⟩] : List (Cand ℕ)) [] 5 =
      [(2, ⟨2, 0, 2 * 0.7⟩), (1, ⟨2, 0, 2 * 0.7⟩)] ∧
    ¬ (productos_ordenados ([⟨2, 2⟩, ⟨1, 2⟩] : List (Cand ℕ)) [] 5).Sorted
        (fun x y => y.2.hybrid_score < x.2.hybrid_score ∨
          (x.2.hybrid_score = y.2.hybrid_score ∧ x.1 < y.1)) := by
  have hev : productos_ordenados ([⟨2, 2⟩, ⟨1, 2⟩] : List (Cand ℕ)) [] 5 =
      [(2, ⟨2, 0, 2 * 0.7⟩), (1, ⟨2, 0, 2 * 0.7⟩)] := by
    norm_num [productos_ordenados, productos_fusionados, fuseTextStep, textEntry,
      dictInsert, sortDesc, insertDesc]
  refine ⟨hev, ?_⟩
  rw [hev]
  intro hsorted
  rcases List.sorted_cons.1 hsorted with ⟨hrel, -⟩
  rcases hrel _ (List.mem_singleton_self _) with h | h
  · exact lt_irrefl _ h
  · exact absurd h.2 (by norm_num)

/-! ## Properties of the similarity kernel -/

theorem dot_cons (x y : ℚ) (xs ys : List ℚ) :
    dot (x :: xs) (y :: ys) = x * y + dot xs ys := by
  simp [dot]

theorem normSq_cons (x : ℚ) (xs : List ℚ) :
    normSq (x :: xs) = x * x + normSq xs := by
  simp [normSq, dot]

theorem dot_comm (a b : List ℚ) : dot a b = dot b a := by
  unfold dot
  rw [List.zipWith_comm_of_comm (· * ·) mul_comm]

theorem normSq_nonneg (a : List ℚ) : 0 ≤ normSq a := by
  induction a with
  | nil => norm_num [normSq, dot]
  | cons x xs ih =>
    rw [normSq_cons]
    exact add_nonneg (mul_self_nonneg x) ih

theorem dot_eq_zero_right (a b : List ℚ) (hb : normSq b = 0) : dot a b = 0 := by
  induction b generalizing a with
  | nil => cases a <;> simp [dot]
  | cons y ys ih =>
    cases a with
    | nil => simp [dot]
    | cons x xs =>
      rw [normSq_cons] at hb
      have hy2 : y * y = 0 :=
        le_antisymm (by nlinarith [normSq_nonneg ys]) (mul_self_nonneg y)
      have hys : normSq ys = 0 := by linarith
      rw [dot_cons, mul_self_eq_zero.1 hy2, ih xs hys]
      ring

/-- Expansion of `normSq (u•a - t•b)` for equal-length vectors. -/
theorem normSq_lin_comb (a : List ℚ) : ∀ (b : List ℚ), a.length = b.length →
    ∀ (u t : ℚ),
    normSq (List.zipWith (fun x y => u * x - t * y) a b) =
      u ^ 2 * normSq a - 2 * u * t * dot a b + t ^ 2 * normSq b := by
  induction a with
  | nil =>
    intro b h u t
    cases b with
    | nil => simp [normSq, dot]
    | cons y ys => simp at h
  | cons x xs ih =>
    intro b h u t
    cases b with
    | nil => simp at h
    | cons y ys =>
      have h' : xs.length = ys.length := by simpa using h
      simp only [List.zipWith_cons_cons, normSq_cons, dot_cons, ih ys h' u t]
      ring

/-- Cauchy–Schwarz for the list dot product. -/
theorem dot_sq_le (a b : List ℚ) (h : a.length = b.length) :
    dot a b ^ 2 ≤ normSq a * normSq b := by
  by_cases hb : normSq b = 0
  · rw [dot_eq_zero_right a b hb, hb]
    norm_num
  · have hbpos : 0 < normSq b := lt_of_le_of_ne (normSq_nonneg b) (Ne.symm hb)
    have hnn := normSq_nonneg
      (List.zipWith (fun x y => normSq b * x - dot a b * y) a b)
    rw [normSq_lin_comb a b h (normSq b) (dot a b)] at hnn
    nlinarith [hnn, hbpos]

/-- C5: the vector-search cosine similarity is symmetric; any value it returns
lies in [-1, 1] (whenever the floating square root satisfies its defining
equations at the two norms involved); and the similarity of a non-zero vector
with itself is exactly 1 in exact arithmetic. -/
theorem C5_cosine_similarity_props (s : ℚ → ℚ) (a b : List ℚ) :
    (VectorSearch.cosine_similarity s a b = VectorSearch.cosine_similarity s b a) ∧
    (∀ v : ℚ, 0 ≤ s (normSq a) → s (normSq a) ^ 2 = normSq a →
      0 ≤ s (normSq b) → s (normSq b) ^ 2 = normSq b →
      VectorSearch.cosine_similarity s a b = .ok v → -1 ≤ v ∧ v ≤ 1) ∧
    (normSq a ≠ 0 → s (normSq a) ^ 2 = normSq a →
      VectorSearch.cosine_similarity s a a = .ok 1) := by
  refine ⟨?_, ?_, ?_⟩
  · unfold VectorSearch.cosine_similarity
    by_cases hz : normSq a = 0 ∨ normSq b = 0
    · rw [if_pos hz, if_pos (Or.symm hz)]
    · rw [if_neg hz, if_neg (fun h => hz (Or.symm h))]
      by_cases hl : a.length = b.length
      · rw [if_pos hl, if_pos hl.symm, dot_comm, mul_comm]
      · rw [if_neg hl, if_neg (fun h => hl h.symm)]
  · intro v hsa0 hsa hsb0 hsb hok
    unfold VectorSearch.cosine_similarity at hok
    by_cases hz : normSq a = 0 ∨ normSq b = 0
    · rw [if_pos hz] at hok
      have hv : (0 : ℚ) = v := Except.ok.inj hok
      rw [← hv]
      norm_num
    · rw [if_neg hz] at hok
      push_neg at hz
      by_cases hl : a.length = b.length
      · rw [if_pos hl] at hok
        have hv := Except.ok.inj hok
        have hsapos : 0 < s (normSq a) := by
          rcases lt_or_eq_of_le hsa0 with hlt | heq
          · exact hlt
          · exact absurd (by rw [← hsa, ← heq]; ring) hz.1
        have hsbpos : 0 < s (normSq b) := by
          rcases lt_or_eq_of_le hsb0 with hlt | heq
          · exact hlt
          · exact absurd (by rw [← hsb, ← heq]; ring) hz.2
        have hcs : dot a b ^ 2 ≤ normSq a * normSq b := dot_sq_le a b hl
        have hprod : 0 < s (normSq a) * s (normSq b) := mul_pos hsapos hsbpos
        have hub : dot a b ≤ s (normSq a) * s (normSq b) := by
          nlinarith [sq_nonneg (dot a b - s (normSq a) * s (normSq b))]
        have hlb : -(s (normSq a) * s (normSq b)) ≤ dot a b := by
          nlinarith [sq_nonneg (dot a b + s (normSq a) * s (normSq b))]
        rw [← hv]
        constructor
        · rw [le_div_iff₀ hprod]
          linarith
        · rw [div_le_one hprod]
          exact hub
      · rw [if_neg hl] at hok
        cases hok
  · intro ha hsa
    unfold VectorSearch.cosine_similarity
    rw [if_neg (by simpa using ha), if_pos rfl]
    have hss : s (normSq a) * s (normSq a) = normSq a := by
      rw [← pow_two]
      exact hsa
    rw [show dot a a = normSq a from rfl, hss, div_self ha]

/-- A concrete square root valid at the norms of the witness vectors. -/
def sqrtW : ℚ → ℚ := fun q => if q = 25 then 5 else if q = 169 then 13 else 0

/-- Witness for C5 at `a = [3,4]`, `b = [5,12]` (norms 5 and 13). -/
theorem C5_cosine_similarity_props_witness :
    (VectorSearch.cosine_similarity sqrtW [3, 4] [5, 12] =
      VectorSearch.cosine_similarity sqrtW [5, 12] [3, 4]) ∧
    (-1 ≤ (63 : ℚ) / 65 ∧ (63 : ℚ) / 65 ≤ 1) ∧
    VectorSearch.cosine_similarity sqrtW [3, 4] [3, 4] = .ok 1 := by
  have h := C5_cosine_similarity_props sqrtW [3, 4] [5, 12]
  refine ⟨h.1, ?_, ?_⟩
  · exact h.2.1 ((63 : ℚ) / 65)
      (by norm_num [sqrtW, normSq, dot])
      (by norm_num [sqrtW, normSq, dot])
      (by norm_num [sqrtW, normSq, dot])
      (by norm_num [sqrtW, normSq, dot])
      (by norm_num [VectorSearch.cosine_similarity, sqrtW, normSq, dot])
  · exact h.2.2 (by norm_num [normSq, dot]) (by norm_num [sqrtW, normSq, dot])

/-- C6: a zero-magnitude first vector short-circuits the norm guard, so the
similarity returns 0 and in particular raises no division-by-zero (and not
even a dimension error — the guard runs before `np.dot`). -/
theorem C6_zero_vector_similarity (s : ℚ → ℚ) (z x : List ℚ) (hz : normSq z = 0) :
    VectorSearch.cosine_similarity s z x = .ok 0 := by
  unfold VectorSearch.cosine_similarity
  rw [if_pos (Or.inl hz)]

/-- Witness for C6: the zero vector of length 2 against `[3, 4]`. -/
theorem C6_zero_vector_similarity_witness :
    VectorSearch.cosine_similarity (fun q => q) [0, 0] [3, 4] = .ok 0 :=
  C6_zero_vector_similarity (fun q => q) [0, 0] [3, 4] (by norm_num [normSq, dot])

/-! ## Text search with hybrid scoring (`search_products`, `src/web_app.py`
lines 365-479)

The query embedding is produced by the external encoder and is therefore a
parameter.  Only fields that the scoring reads are modelled; the metadata
fields that are copied through to the result payload unchanged
(price, rating, availability, ...) are not.  The whole loop runs inside a
`try` whose handler returns `[]`, modelled by the `Except`-valued
`search_productsE` plus the catching wrapper `search_products`. -/

namespace WebApp

/-- A `productos` document as read by `search_products`. -/
structure Producto (α : Type*) where
  pid : α
  nombre : List Char
  descripcion : List Char
  categoriaNombre : List Char
  marcaNombre : List Char
  descripcionEmbedding : Option (List ℚ)
  deriving DecidableEq, Repr

/-- The Mongo filter `{"descripcionEmbedding": {"$exists": True, "$ne": []}}`
combined with the loop's identical truthiness re-check. -/
def hasEmbedding {α : Type*} (p : Producto α) : Bool :=
  match p.descripcionEmbedding with
  | some (_ :: _) => true
  | _ => false

/-- Variable `combined_text`: the four lower-cased fields joined by `" ".join`. -/
def combined_text {α : Type*} (p : Producto α) : List Char :=
  joinSpace [lowerStr p.nombre, lowerStr p.descripcion,
    lowerStr p.categoriaNombre, lowerStr p.marcaNombre]

/-- Signal `keyword_score`: fraction of query words (from the stripped, lower-cased
query) occurring as substrings of `combined_text`; 0 for a wordless query. -/
def keyword_score {α : Type*} (query : List Char) (p : Producto α) : ℚ :=
  let query_words := splitWs (stripStr (lowerStr query))
  if query_words.isEmpty then 0
  else (query_words.countP (fun w => containsSub w (combined_text p)) : ℚ) /
    query_words.length

/-- Signal `exact_match_boost`: 0.3 if the stripped lower-cased query is a substring
of the item name, else 0.25 if of the category name, else 0. -/
def exact_match_boost {α : Type*} (query : List Char) (p : Producto α) : ℚ :=
  let query_lower := stripStr (lowerStr query)
  if containsSub query_lower (lowerStr p.nombre) then 0.3
  else if containsSub query_lower (lowerStr p.categoriaNombre) then 0.25
  else 0

/-- One scored result of `search_products`: the four rounded score fields
stored in `producto_info`. -/
structure WResult (α : Type*) where
  producto : Producto α
  similarity : ℚ
  semantic_score : ℚ
  keyword : ℚ
  boost : ℚ
  deriving DecidableEq, Repr

/-- Scoring of one product inside the loop: semantic cosine, keyword score,
boost, `hybrid_score = semantic*0.6 + keyword*0.3 + boost`, all rounded to 4
decimals in the result payload (the sort key `similarity` is the rounded
hybrid score). -/
def scoreProduct {α : Type*} (s : ℚ → ℚ) (query_embedding : List ℚ)
    (query : List Char) (p : Producto α) : Except VErr (WResult α) :=
  (cosine_similarity s query_embedding (p.descripcionEmbedding.getD [])).bind
    fun semantic_similarity =>
      .ok ⟨p,
        roundTo 4 (semantic_similarity * 0.6 + keyword_score query p * 0.3 +
          exact_match_boost query p),
        roundTo 4 semantic_similarity,
        roundTo 4 (keyword_score query p),
        roundTo 4 (exact_match_boost query p)⟩

/-- The body of `search_products` before the `except` handler. -/
def search_productsE {α : Type*} (s : ℚ → ℚ) (query_embedding : List ℚ)
    (query : List Char) (db : List (Producto α)) (limit : ℕ) :
    Except VErr (List (WResult α)) :=
  ((db.filter hasEmbedding).foldlM
      (fun acc p => (scoreProduct s query_embedding query p).map
        (fun r => acc ++ [r])) []).map
    (fun resultados => (sortDesc (fun r => r.similarity) resultados).take limit)

/-- Function `search_products`: any exception in the body is caught and `[]` returned. -/
def search_products {α : Type*} (s : ℚ → ℚ) (query_embedding : List ℚ)
    (query : List Char) (db : List (Producto α)) (limit : ℕ) : List (WResult α) :=
  match search_productsE s query_embedding query db limit with
  | .ok r => r
  | .error _ => []

end WebApp

namespace SpecClaim

/-- The keyword score exactly as claim C3 words it: query words matched
against the plain (separator-free) concatenation of the four lower-cased
fields. -/
def keyword_score {α : Type*} (query : List Char) (p : WebApp.Producto α) : ℚ :=
  let query_words := splitWs (lowerStr query)
  if query_words.isEmpty then 0
  else (query_words.countP (fun w => containsSub w
    (lowerStr p.nombre ++ lowerStr p.descripcion ++
      lowerStr p.categoriaNombre ++ lowerStr p.marcaNombre)) : ℚ) /
    query_words.length

/-- The boost exactly as claim C3 words it: the full lower-cased query
(without trimming). -/
def exact_match_boost {α : Type*} (query : List Char) (p : WebApp.Producto α) : ℚ :=
  if containsSub (lowerStr query) (lowerStr p.nombre) then 0.3
  else if containsSub (lowerStr query) (lowerStr p.categoriaNombre) then 0.25
  else 0

/-- Claim C3's ranking score: `0.6*semantic + 0.3*keyword + 1.0*boost`,
unrounded. -/
def hybrid_score {α : Type*} (semantic : ℚ) (query : List Char)
    (p : WebApp.Producto α) : ℚ :=
  semantic * 0.6 + keyword_score query p * 0.3 + exact_match_boost query p

end SpecClaim

theorem scored_foldl_mem {α : Type*} (s : ℚ → ℚ) (qe : List ℚ) (query : List Char) :
    ∀ (l : List (WebApp.Producto α)) (acc out : List (WebApp.WResult α)),
    l.foldlM (fun acc p => (WebApp.scoreProduct s qe query p).map
      (fun r => acc ++ [r])) acc = .ok out →
    ∀ r ∈ out, r ∈ acc ∨ ∃ p ∈ l, WebApp.scoreProduct s qe query p = .ok r := by
  intro l
  induction l with
  | nil =>
    intro acc out hok r hr
    simp only [List.foldlM_nil] at hok
    exact Or.inl ((Except.ok.inj hok) ▸ hr)
  | cons p ps ih =>
    intro acc out hok r hr
    simp only [List.foldlM_cons] at hok
    cases hstep : WebApp.scoreProduct s qe query p with
    | error e =>
      rw [hstep] at hok
      cases hok
    | ok r' =>
      rw [hstep] at hok
      simp only [Except.map, Except.bind] at hok
      rcases ih (acc ++ [r']) out hok r hr with hmem | ⟨p', hp', hps⟩
      · rcases List.mem_append.1 hmem with h | h
        · exact Or.inl h
        · exact Or.inr ⟨p, List.mem_cons_self p ps,
            by rw [hstep, List.mem_singleton.1 h]⟩
      · exact Or.inr ⟨p', List.mem_cons_of_mem p hp', hps⟩

/-- C3 (amended): every candidate returned by `search_products` carries as its
ranking score `round₄(semantic*0.6 + keyword_score*0.3 + exact_match_boost)`
— rounded to 4 decimals — where the keyword score matches the trimmed
lower-cased query's words against the SPACE-SEPARATED concatenation of the
four lower-cased fields, and the boost uses the trimmed lower-cased query. -/
theorem C3_hybrid_score_formula {α : Type*} (s : ℚ → ℚ) (qe : List ℚ)
    (query : List Char) (db : List (WebApp.Producto α)) (limit : ℕ)
    (r : WebApp.WResult α) (hr : r ∈ WebApp.search_products s qe query db limit) :
    ∃ p ∈ db, ∃ sem : ℚ,
      WebApp.cosine_similarity s qe (p.descripcionEmbedding.getD []) = .ok sem ∧
      r.producto = p ∧
      r.similarity = roundTo 4 (sem * 0.6 + WebApp.keyword_score query p * 0.3 +
        WebApp.exact_match_boost query p) := by
  unfold WebApp.search_products at hr
  cases hE : WebApp.search_productsE s qe query db limit with
  | error e =>
    rw [hE] at hr
    cases hr
  | ok res =>
    rw [hE] at hr
    unfold WebApp.search_productsE at hE
    cases hfold : (db.filter WebApp.hasEmbedding).foldlM
        (fun acc p => (WebApp.scoreProduct s qe query p).map
          (fun r => acc ++ [r])) [] with
    | error e =>
      rw [hfold] at hE
      cases hE
    | ok resultados =>
      rw [hfold] at hE
      simp only [Except.map] at hE
      have hres : res = (sortDesc (fun r => r.similarity) resultados).take limit :=
        (Except.ok.inj hE).symm
      rw [hres] at hr
      have hr2 : r ∈ resultados :=
        (sortDesc_perm _ resultados).mem_iff.1 ((List.take_sublist _ _).subset hr)
      rcases (scored_foldl_mem s qe query _ [] resultados hfold r hr2).resolve_left
          (by simp) with ⟨p, hp, hscore⟩
      refine ⟨p, (List.mem_filter.1 hp).1, ?_⟩
      unfold WebApp.scoreProduct at hscore
      cases hcos : WebApp.cosine_similarity s qe (p.descripcionEmbedding.getD []) with
      | error e =>
        rw [hcos] at hscore
        cases hscore
      | ok sem =>
        rw [hcos] at hscore
        simp only [Except.bind] at hscore
        cases Except.ok.inj hscore
        exact ⟨sem, rfl, rfl, rfl⟩

/-- Full evaluation of `search_products` on the C3 example: query "bc",
item name "ab", description "cd", empty category and brand, embedding equal
to the query embedding (semantic similarity 1). -/
theorem search_products_eval_bc :
    WebApp.search_products (fun q : ℚ => q) [1, 0] ['b', 'c']
      [⟨1, ['a', 'b'], ['c', 'd'], [], [], some [1, 0]⟩] 10 =
      [⟨⟨1, ['a', 'b'], ['c', 'd'], [], [], some [1, 0]⟩, 3/5, 1, 0, 0⟩] := by
  have hsem : WebApp.cosine_similarity (fun q : ℚ => q) [1, 0] [1, 0] = .ok 1 := by
    norm_num [WebApp.cosine_similarity, normSq, dot]
  have hkw : WebApp.keyword_score ['b', 'c']
      (⟨1, ['a', 'b'], ['c', 'd'], [], [], some [1, 0]⟩ : WebApp.Producto ℕ) = 0 := by
    have hsplit : splitWs (stripStr (lowerStr ['b', 'c'])) = [['b', 'c']] := by decide
    have hct : containsSub ['b', 'c'] (WebApp.combined_text
        (⟨1, ['a', 'b'], ['c', 'd'], [], [], some [1, 0]⟩ : WebApp.Producto ℕ)) =
        false := by decide
    simp [WebApp.keyword_score, hsplit, hct, List.countP_cons, List.countP_nil]
  have hboost : WebApp.exact_match_boost ['b', 'c']
      (⟨1, ['a', 'b'], ['c', 'd'], [], [], some [1, 0]⟩ : WebApp.Producto ℕ) = 0 := by
    have hb1 : containsSub (stripStr (lowerStr ['b', 'c'])) (lowerStr ['a', 'b']) =
        false := by decide
    have hb2 : containsSub (stripStr (lowerStr ['b', 'c'])) (lowerStr []) =
        false := by decide
    simp [WebApp.exact_match_boost, hb1, hb2]
  have hround : roundTo 4 (0.6 : ℚ) = 3/5 := by
    norm_num [roundTo, roundHalfEven]
  have hr1 : roundTo 4 (1 : ℚ) = 1 := by norm_num [roundTo, roundHalfEven]
  have hr0 : roundTo 4 (0 : ℚ) = 0 := by norm_num [roundTo, roundHalfEven]
  simp [WebApp.search_products, WebApp.search_productsE, WebApp.scoreProduct,
    WebApp.hasEmbedding, List.foldlM, Except.map, Except.bind, hsem, hkw, hboost,
    hround, hr1, hr0, sortDesc, insertDesc]

/-- Counterexample to C3 as stated: for query "bc" and an item with name "ab"
and description "cd", semantic similarity 1, the code's ranking score is 0.6
(the code finds no keyword hit in the space-joined text "ab cd  "), while the
claim's formula yields 0.9 because "bc" IS a substring of the separator-free
concatenation "abcd". -/
theorem C3_counterexample :
    (WebApp.search_products (fun q : ℚ => q) [1, 0] ['b', 'c']
        [⟨1, ['a', 'b'], ['c', 'd'], [], [], some [1, 0]⟩] 10).map
      (fun r => r.similarity) = [3/5] ∧
    SpecClaim.hybrid_score 1 ['b', 'c']
      (⟨1, ['a', 'b'], ['c', 'd'], [], [], some [1, 0]⟩ : WebApp.Producto ℕ) = 9/10 ∧
    (3/5 : ℚ) ≠ 9/10 := by
  refine ⟨by rw [search_products_eval_bc]; rfl, ?_, by norm_num⟩
  have hs1 : splitWs (lowerStr ['b', 'c']) = [['b', 'c']] := by decide
  have hct : containsSub ['b', 'c'] (lowerStr ['a', 'b'] ++ (lowerStr ['c', 'd'] ++
      (lowerStr [] ++ lowerStr []))) = true := by decide
  have hb1 : containsSub (lowerStr ['b', 'c']) (lowerStr ['a', 'b']) = false := by
    decide
  have hb2 : containsSub (lowerStr ['b', 'c']) (lowerStr []) = false := by decide
  norm_num [SpecClaim.hybrid_score, SpecClaim.keyword_score,
    SpecClaim.exact_match_boost, hs1, hct, hb1, hb2, List.countP_cons,
    List.countP_nil]

/-- Witness for the amended C3 at the evaluated input. -/
theorem C3_hybrid_score_formula_witness :
    ∃ p ∈ ([⟨1, ['a', 'b'], ['c', 'd'], [], [], some [1, 0]⟩] :
        List (WebApp.Producto ℕ)), ∃ sem : ℚ,
      WebApp.cosine_similarity (fun q : ℚ => q) [1, 0]
        (p.descripcionEmbedding.getD []) = .ok sem ∧
      (⟨⟨1, ['a', 'b'], ['c', 'd'], [], [], some [1, 0]⟩, 3/5, 1, 0, 0⟩ :
        WebApp.WResult ℕ).producto = p ∧
      (⟨⟨1, ['a', 'b'], ['c', 'd'], [], [], some [1, 0]⟩, 3/5, 1, 0, 0⟩ :
        WebApp.WResult ℕ).similarity =
        roundTo 4 (sem * 0.6 + WebApp.keyword_score ['b', 'c'] p * 0.3 +
          WebApp.exact_match_boost ['b', 'c'] p) :=
  C3_hybrid_score_formula (fun q : ℚ => q) [1, 0] ['b', 'c'] _ 10 _
    (by rw [search_products_eval_bc]; exact List.mem_singleton_self _)

/-! ## Threshold-filtered text search (`search_productos`,
`src/search/vector_search.py` lines 81-160)

This variant applies the configured minimum-score threshold `min_score` to the
cosine similarity, which is also the score it stores (`search_score`) and
ranks by.  It has no `try` handler: a `ValueError` from the similarity kernel
propagates and aborts the whole batch. -/

theorem except_bind_ok {ε : Type u} {β γ : Type v} (x : β) (f : β → Except ε γ) :
    (Except.ok x >>= f) = f x := rfl

theorem except_bind_error {ε : Type u} {β γ : Type v} (e : ε) (f : β → Except ε γ) :
    ((Except.error e : Except ε β) >>= f) = .error e := rfl

namespace VectorSearch

/-- A `productos` document as read by `search_productos` (fields that pass
through unchanged to the payload are not modelled). -/
structure Producto (α : Type*) where
  pid : α
  idCategoria : List Char
  precioUsd : ℚ
  descripcionEmbedding : Option (List ℚ)
  deriving DecidableEq, Repr

/-- The Mongo filter: `descripcionEmbedding` `$exists`, optional category
equality, optional inclusive price bounds. -/
def matchesFilters {α : Type*} (category_filter : Option (List Char))
    (price_range : Option (Option ℚ × Option ℚ)) (p : Producto α) : Bool :=
  p.descripcionEmbedding.isSome &&
  (match category_filter with
   | none => true
   | some c => p.idCategoria == c) &&
  (match price_range with
   | none => true
   | some (min_price, max_price) =>
     (match min_price with
      | none => true
      | some m => decide (m ≤ p.precioUsd)) &&
     (match max_price with
      | none => true
      | some m => decide (p.precioUsd ≤ m)))

/-- A scored result: the product (the code strips the embedding from the
payload; here the record is carried whole) with its `search_score`. -/
structure VResult (α : Type*) where
  producto : Producto α
  search_score : ℚ
  deriving DecidableEq, Repr

/-- The loop body: score one product, keep it when `similarity >= min_score`. -/
def scoreStep {α : Type*} (s : ℚ → ℚ) (query_embedding : List ℚ) (min_score : ℚ)
    (acc : List (VResult α)) (prod : Producto α) : Except VErr (List (VResult α)) :=
  if prod.descripcionEmbedding.isSome then
    (cosine_similarity s query_embedding (prod.descripcionEmbedding.getD [])).bind
      (fun similarity =>
        if min_score ≤ similarity then .ok (acc ++ [⟨prod, similarity⟩])
        else .ok acc)
  else .ok acc

/-- Function `search_productos`: filter, score, threshold, sort descending, truncate. -/
def search_productos {α : Type*} (s : ℚ → ℚ) (query_embedding : List ℚ)
    (db : List (Producto α)) (limit : ℕ) (min_score : ℚ)
    (category_filter : Option (List Char))
    (price_range : Option (Option ℚ × Option ℚ)) :
    Except VErr (List (VResult α)) :=
  ((db.filter (matchesFilters category_filter price_range)).foldlM
      (scoreStep s query_embedding min_score) []).map
    (fun resultados => (sortDesc (fun r => r.search_score) resultados).take limit)

end VectorSearch

theorem scoreStep_foldl_invariant {α : Type*} (s : ℚ → ℚ) (qe : List ℚ)
    (min_score : ℚ) :
    ∀ (l : List (VectorSearch.Producto α)) (acc out : List (VectorSearch.VResult α)),
    l.foldlM (VectorSearch.scoreStep s qe min_score) acc = .ok out →
    (∀ r ∈ acc, r.producto.descripcionEmbedding.isSome ∧ min_score ≤ r.search_score) →
    ∀ r ∈ out, r.producto.descripcionEmbedding.isSome ∧ min_score ≤ r.search_score := by
  intro l
  induction l with
  | nil =>
    intro acc out hok hacc
    exact (Except.ok.inj hok) ▸ hacc
  | cons p ps ih =>
    intro acc out hok hacc
    simp only [List.foldlM_cons] at hok
    cases hstep : VectorSearch.scoreStep s qe min_score acc p with
    | error e =>
      rw [hstep, except_bind_error] at hok
      cases hok
    | ok acc' =>
      rw [hstep, except_bind_ok] at hok
      refine ih acc' out hok ?_
      intro r hr
      unfold VectorSearch.scoreStep at hstep
      by_cases hemb : p.descripcionEmbedding.isSome
      · rw [if_pos hemb] at hstep
        cases hcos : VectorSearch.cosine_similarity s qe
            (p.descripcionEmbedding.getD []) with
        | error e =>
          rw [hcos] at hstep
          cases hstep
        | ok sim =>
          rw [hcos] at hstep
          simp only [Except.bind] at hstep
          by_cases hms : min_score ≤ sim
          · rw [if_pos hms] at hstep
            cases Except.ok.inj hstep
            rcases List.mem_append.1 hr with h | h
            · exact hacc r h
            · rw [List.mem_singleton.1 h]
              exact ⟨hemb, hms⟩
          · rw [if_neg hms] at hstep
            cases Except.ok.inj hstep
            exact hacc r hr
      · rw [if_neg hemb] at hstep
        cases Except.ok.inj hstep
        exact hacc r hr

/-- C2: whenever `search_productos` succeeds, every returned candidate's item
has a text embedding, its stored score (the semantic similarity, which is the
score the function filters and ranks by) is at least the configured
`min_score` threshold, and at most `limit` candidates are returned. -/
theorem C2_search_productos_contract {α : Type*} (s : ℚ → ℚ) (qe : List ℚ)
    (db : List (VectorSearch.Producto α)) (limit : ℕ) (min_score : ℚ)
    (category_filter : Option (List Char))
    (price_range : Option (Option ℚ × Option ℚ))
    (res : List (VectorSearch.VResult α))
    (hok : VectorSearch.search_productos s qe db limit min_score category_filter
      price_range = .ok res) :
    (∀ r ∈ res, r.producto.descripcionEmbedding.isSome ∧ min_score ≤ r.search_score) ∧
    res.length ≤ limit := by
  unfold VectorSearch.search_productos at hok
  cases hfold : (db.filter (VectorSearch.matchesFilters category_filter
      price_range)).foldlM (VectorSearch.scoreStep s qe min_score) [] with
  | error e =>
    rw [hfold] at hok
    cases hok
  | ok resultados =>
    rw [hfold] at hok
    simp only [Except.map] at hok
    have hres : res = (sortDesc (fun r => r.search_score) resultados).take limit :=
      (Except.ok.inj hok).symm
    constructor
    · intro r hr
      rw [hres] at hr
      have hmem : r ∈ resultados :=
        (sortDesc_perm _ resultados).mem_iff.1 ((List.take_sublist _ _).subset hr)
      exact scoreStep_foldl_invariant s qe min_score _ [] resultados hfold
        (by simp) r hmem
    · rw [hres]
      exact List.length_take_le _ _

/-- Evaluation of `search_productos` on a two-product corpus: one matching
product with an embedding, one without an embedding (filtered out). -/
theorem search_productos_eval :
    VectorSearch.search_productos (fun q : ℚ => q) [1, 0]
      [⟨1, [], 5, some [1, 0]⟩, (⟨2, [], 5, none⟩ : VectorSearch.Producto ℕ)]
      10 1 none none = .ok [⟨⟨1, [], 5, some [1, 0]⟩, 1⟩] := by
  have hsem : VectorSearch.cosine_similarity (fun q : ℚ => q) [1, 0] [1, 0] =
      .ok 1 := by
    norm_num [VectorSearch.cosine_similarity, normSq, dot]
  simp [VectorSearch.search_productos, VectorSearch.matchesFilters,
    VectorSearch.scoreStep, List.foldlM, hsem, Except.map, Except.bind,
    sortDesc, insertDesc]

/-- Witness for C2 at the evaluated input (threshold 1, limit 10). -/
theorem C2_search_productos_contract_witness :
    (∀ r ∈ [(⟨⟨1, [], 5, some [1, 0]⟩, 1⟩ : VectorSearch.VResult ℕ)],
      r.producto.descripcionEmbedding.isSome ∧ (1 : ℚ) ≤ r.search_score) ∧
    [(⟨⟨1, [], 5, some [1, 0]⟩, 1⟩ : VectorSearch.VResult ℕ)].length ≤ 10 :=
  C2_search_productos_contract (fun q : ℚ => q) [1, 0]
    [⟨1, [], 5, some [1, 0]⟩, ⟨2, [], 5, none⟩] 10 1 none none
    [⟨⟨1, [], 5, some [1, 0]⟩, 1⟩] search_productos_eval

theorem scoreStep_foldl_error {α : Type*} (s : ℚ → ℚ) (qe : List ℚ)
    (min_score : ℚ) :
    ∀ (l : List (VectorSearch.Producto α)) (acc : List (VectorSearch.VResult α))
      (bad : VectorSearch.Producto α) (e : List ℚ),
    bad ∈ l → bad.descripcionEmbedding = some e →
    normSq qe ≠ 0 → normSq e ≠ 0 → qe.length ≠ e.length →
    l.foldlM (VectorSearch.scoreStep s qe min_score) acc = .error .dimMismatch := by
  intro l
  induction l with
  | nil =>
    intro acc bad e hmem
    cases hmem
  | cons p ps ih =>
    intro acc bad e hmem hemb hq he hlen
    simp only [List.foldlM_cons]
    rcases List.mem_cons.1 hmem with rfl | hmem'
    · have hstep : VectorSearch.scoreStep s qe min_score acc bad =
          .error .dimMismatch := by
        unfold VectorSearch.scoreStep
        rw [if_pos (by rw [hemb]; rfl), hemb]
        show (VectorSearch.cosine_similarity s qe e).bind _ = _
        unfold VectorSearch.cosine_similarity
        rw [if_neg (by push_neg; exact ⟨hq, he⟩), if_neg hlen]
        rfl
      rw [hstep, except_bind_error]
    · cases hstep : VectorSearch.scoreStep s qe min_score acc p with
      | error er =>
        cases er
        rw [except_bind_error]
      | ok acc' =>
        rw [except_bind_ok]
        exact ih acc' bad e hmem' hemb hq he hlen

theorem scored_foldl_error {α : Type*} (s : ℚ → ℚ) (qe : List ℚ)
    (query : List Char) :
    ∀ (l : List (WebApp.Producto α)) (acc : List (WebApp.WResult α))
      (bad : WebApp.Producto α) (e : List ℚ),
    bad ∈ l → bad.descripcionEmbedding = some e → qe.length ≠ e.length →
    l.foldlM (fun acc p => (WebApp.scoreProduct s qe query p).map
      (fun r => acc ++ [r])) acc = .error .dimMismatch := by
  intro l
  induction l with
  | nil =>
    intro acc bad e hmem
    cases hmem
  | cons p ps ih =>
    intro acc bad e hmem hemb hlen
    simp only [List.foldlM_cons]
    rcases List.mem_cons.1 hmem with rfl | hmem'
    · have hstep : WebApp.scoreProduct s qe query bad = .error .dimMismatch := by
        unfold WebApp.scoreProduct
        rw [hemb]
        show (WebApp.cosine_similarity s qe e).bind _ = _
        unfold WebApp.cosine_similarity
        rw [if_neg hlen]
        rfl
      rw [hstep]
      rfl
    · cases hstep : WebApp.scoreProduct s qe query p with
      | error er =>
        cases er
        simp only [Except.map]
        rw [except_bind_error]
      | ok r' =>
        simp only [Except.map]
        rw [except_bind_ok]
        exact ih (acc ++ [r']) bad e hmem' hemb hlen

/-- C9 (amended): a stored embedding whose length disagrees with the query
vector's aborts the WHOLE batch, instead of only skipping that candidate:
`search_productos` propagates the `ValueError` (returning no candidates at
all, provided neither vector is zero-magnitude, since the zero guard runs
first there), and `search_products` catches the error and returns `[]`. -/
theorem C9_dimension_mismatch_aborts_batch {α : Type*} (s : ℚ → ℚ) (qe : List ℚ)
    (db : List (VectorSearch.Producto α)) (limit : ℕ) (min_score : ℚ)
    (category_filter : Option (List Char))
    (price_range : Option (Option ℚ × Option ℚ))
    (bad : VectorSearch.Producto α) (e : List ℚ)
    (hmem : bad ∈ db)
    (hfil : VectorSearch.matchesFilters category_filter price_range bad = true)
    (hemb : bad.descripcionEmbedding = some e)
    (hq : normSq qe ≠ 0) (he : normSq e ≠ 0) (hlen : qe.length ≠ e.length)
    (query : List Char) (dbW : List (WebApp.Producto α))
    (badW : WebApp.Producto α) (eW : List ℚ)
    (hmemW : badW ∈ dbW) (hfilW : WebApp.hasEmbedding badW = true)
    (hembW : badW.descripcionEmbedding = some eW) (hlenW : qe.length ≠ eW.length) :
    VectorSearch.search_productos s qe db limit min_score category_filter
      price_range = .error .dimMismatch ∧
    WebApp.search_products s qe query dbW limit = [] := by
  constructor
  · unfold VectorSearch.search_productos
    rw [scoreStep_foldl_error s qe min_score _ [] bad e
      (List.mem_filter.2 ⟨hmem, hfil⟩) hemb hq he hlen]
    rfl
  · unfold WebApp.search_products WebApp.search_productsE
    rw [scored_foldl_error s qe query _ [] badW eW
      (List.mem_filter.2 ⟨hmemW, hfilW⟩) hembW hlenW]
    rfl

/-- Witness for the amended C9: a well-formed product plus a product whose
embedding has length 3 against a length-2 query vector. -/
theorem C9_dimension_mismatch_aborts_batch_witness :
    VectorSearch.search_productos (fun q : ℚ => q) [1, 0]
      [⟨1, [], 5, some [1, 0]⟩, (⟨2, [], 5, some [1, 2, 3]⟩ : VectorSearch.Producto ℕ)]
      10 0 none none = .error .dimMismatch ∧
    WebApp.search_products (fun q : ℚ => q) [1, 0] ['x']
      [⟨1, [], [], [], [], some [1, 0]⟩,
        (⟨2, [], [], [], [], some [1, 2, 3]⟩ : WebApp.Producto ℕ)] 10 = [] :=
  C9_dimension_mismatch_aborts_batch (fun q : ℚ => q) [1, 0]
    [⟨1, [], 5, some [1, 0]⟩, ⟨2, [], 5, some [1, 2, 3]⟩] 10 0 none none
    ⟨2, [], 5, some [1, 2, 3]⟩ [1, 2, 3] (by decide) (by decide) rfl
    (by norm_num [normSq, dot]) (by norm_num [normSq, dot]) (by decide)
    ['x'] [⟨1, [], [], [], [], some [1, 0]⟩, ⟨2, [], [], [], [], some [1, 2, 3]⟩]
    ⟨2, [], [], [], [], some [1, 2, 3]⟩ [1, 2, 3] (by decide) (by decide) rfl
    (by decide)

/-- Counterexample to C9 as stated: with a healthy candidate and a
dimension-mismatched candidate in the same batch, NOTHING is returned — the
healthy candidate is not scored and returned as the claim demands. -/
theorem C9_counterexample :
    VectorSearch.search_productos (fun q : ℚ => q) [1, 0]
      [⟨1, [], 5, some [1, 0]⟩, (⟨2, [], 5, some [1, 2, 3]⟩ : VectorSearch.Producto ℕ)]
      10 0 none none = .error .dimMismatch ∧
    WebApp.search_products (fun q : ℚ => q) [1, 0] ['x']
      [⟨1, [], [], [], [], some [1, 0]⟩,
        (⟨2, [], [], [], [], some [1, 2, 3]⟩ : WebApp.Producto ℕ)] 10 = [] ∧
    ([] : List (WebApp.WResult ℕ)) ≠
      [⟨⟨1, [], [], [], [], some [1, 0]⟩, 3/5, 1, 0, 0⟩] := by
  refine ⟨?_, ?_, by simp⟩
  · unfold VectorSearch.search_productos
    rw [scoreStep_foldl_error (fun q : ℚ => q) [1, 0] 0 _ []
      ⟨2, [], 5, some [1, 2, 3]⟩ [1, 2, 3] (by decide) rfl
      (by norm_num [normSq, dot]) (by norm_num [normSq, dot]) (by decide)]
    rfl
  · unfold WebApp.search_products WebApp.search_productsE
    rw [scored_foldl_error (fun q : ℚ => q) [1, 0] ['x'] _ []
      ⟨2, [], [], [], [], some [1, 2, 3]⟩ [1, 2, 3] (by decide) rfl (by decide)]
    rfl

/-! ## The composed RAG endpoint (`rag_query`, `src/web_app.py` lines 1139-1530)

External collaborators are parameters: the text / image vector searches
(already-scored candidate lists, as delivered by `$vectorSearch`), whether
the CLIP encoder loads, the per-product review retrieval, and the LLM call.
The response is returned together with the ordered list of effects the
request performed, so that "no retrieval work was attempted" is expressible
as an empty trace.  The presentational `contexto` string and the LLM prompt
assembly are not modelled. -/

/-- Pipeline stages that contact external services. -/
inductive RagEffect where
  | encodeText
  | encodeClip
  | vectorSearchText
  | vectorSearchImage
  | searchReviews
  | llmCall
  deriving DecidableEq, Repr

/-- The request-fatal error: missing/empty `query` (HTTP 400). -/
inductive RagError where
  | invalidInput
  deriving DecidableEq, Repr

/-- A review as consumed by the response assembly. -/
structure Review where
  calificacion : ℚ
  titulo : List Char
  ventajas : List (List Char)
  desventajas : List (List Char)
  deriving DecidableEq, Repr

/-- One element of the JSON `productos` array: identifier plus the four
score fields (percentages, rounded to 2 decimals).  Document payload fields
copied through unchanged are not modelled. -/
structure FProd (α : Type*) where
  codigo : α
  similarity : ℚ
  text_similarity : ℚ
  image_similarity : ℚ
  hybrid_score : ℚ
  deriving DecidableEq, Repr

/-- Response body of `rag_query` (the fields the claims speak about). -/
structure RagOutput (α : Type*) where
  rag_response : List Char
  productos : List (FProd α)
  total_resenas : ℕ
  deriving DecidableEq, Repr

/-- Error-notice string returned by `generate_answer_with_llm` when the Groq
call raises: `[Error al generar respuesta con LLM: {e}]`. -/
def errorNotice (e : List Char) : List Char :=
  '[' :: (("Error al generar respuesta con LLM: ").toList ++ e ++ [']'])

/-- Model of `generate_answer_with_llm` (lines 262-315): it never raises —
its own try/except catches any failure of the LLM call and returns the
error-notice string as the answer; a successful answer is stripped. -/
def generate_answer_with_llm (llm : Except (List Char) (List Char)) : List Char :=
  match llm with
  | .ok answer => stripStr answer
  | .error e => errorNotice e

/-- JSON formatting of one fused entry (scores times 100, rounded to 2). -/
def formatProducto {α : Type*} (e : α × FusionEntry) : FProd α :=
  ⟨e.1, roundTo 2 (e.2.hybrid_score * 100), roundTo 2 (e.2.text_score * 100),
    roundTo 2 (e.2.image_score * 100), roundTo 2 (e.2.hybrid_score * 100)⟩

/-- The `rag_query` endpoint pipeline. -/
def rag_query {α : Type*} [DecidableEq α] (query : List Char)
    (max_products max_reviews : ℕ) (include_reviews include_images : Bool)
    (clip_ok : Bool) (textResults imageResults : List (Cand α))
    (reviewsFor : α → List Review) (llm : Except (List Char) (List Char)) :
    Except RagError (RagOutput α) × List RagEffect :=
  let q := stripStr query
  if q.isEmpty then (.error .invalidInput, [])
  else
    let clipUp := include_images && clip_ok
    let effEncode := RagEffect.encodeText ::
      (if include_images then [RagEffect.encodeClip] else [])
    let productos_texto := textResults
    let productos_imagen := if clipUp then imageResults else []
    let effSearch := RagEffect.vectorSearchText ::
      (if clipUp then [RagEffect.vectorSearchImage] else [])
    let ordenados := productos_ordenados productos_texto productos_imagen max_products
    let resenas := if include_reviews then
        ordenados.map (fun e => (e.1, (reviewsFor e.1).take max_reviews))
      else []
    let effReviews := if include_reviews then [RagEffect.searchReviews] else []
    let total_resenas := (resenas.map (fun pr => pr.2.length)).sum
    let respuesta := generate_answer_with_llm llm
    (.ok ⟨respuesta, ordenados.map formatProducto, total_resenas⟩,
      effEncode ++ effSearch ++ effReviews ++ [RagEffect.llmCall])

/-- C7: a query that is empty after trimming is rejected with the
invalid-input error and the request performs NO other work: the effect trace
is empty — no encoding, no candidate search, no generation.  (The endpoint
reads no image from the request, so no image can be provided.) -/
theorem C7_empty_query_rejected {α : Type*} [DecidableEq α] (query : List Char)
    (max_products max_reviews : ℕ)
    (include_reviews include_images clip_ok : Bool)
    (textResults imageResults : List (Cand α)) (reviewsFor : α → List Review)
    (llm : Except (List Char) (List Char)) (hq : stripStr query = []) :
    rag_query query max_products max_reviews include_reviews include_images
      clip_ok textResults imageResults reviewsFor llm =
      (.error .invalidInput, []) := by
  simp [rag_query, hq]

/-- Witness for C7: a whitespace-only query. -/
theorem C7_empty_query_rejected_witness :
    rag_query [' ', ' '] 5 3 true true true ([] : List (Cand ℕ)) []
      (fun _ => []) (.ok ['o', 'k']) = (.error .invalidInput, []) :=
  C7_empty_query_rejected [' ', ' '] 5 3 true true true [] [] (fun _ => [])
    (.ok ['o', 'k']) (by decide)

/-- C8, behaviour at the failing input: when retrieval produced a non-empty
candidate list and the LLM call fails, the response still carries the
non-empty candidate list and a non-empty answer — but that answer is the
error-notice string produced inside `generate_answer_with_llm`, NOT the
templated summary built from the ranked candidates: the endpoint's templated
fallback branch is unreachable because the wrapper catches every failure
internally and returns normally. -/
theorem C8_generation_failure_keeps_retrieval :
    rag_query ['l', 'a', 'p'] 5 3 true false false
      ([⟨1, 1⟩] : List (Cand ℕ)) [] (fun _ => []) (.error ['t', 'o']) =
      (.ok ⟨errorNotice ['t', 'o'], [⟨1, 70, 100, 0, 70⟩], 0⟩,
        [.encodeText, .vectorSearchText, .searchReviews, .llmCall]) ∧
    errorNotice ['t', 'o'] ≠ [] ∧
    ([(⟨1, 70, 100, 0, 70⟩ : FProd ℕ)] : List (FProd ℕ)) ≠ [] := by
  have hq : (stripStr ['l', 'a', 'p']).isEmpty = false := by decide
  refine ⟨?_, by simp [errorNotice], by simp⟩
  norm_num [rag_query, hq, productos_ordenados, productos_fusionados,
    fuseTextStep, textEntry, dictInsert, sortDesc, insertDesc, formatProducto,
    generate_answer_with_llm, roundTo, roundHalfEven]
